import Mathlib

/-!
Behavioral pacing engine: shallow embedding and verification.

This file embeds the admission-control and motion-humanization core of the
repository (the `ratelimit` package and the path/scroll generators of the
`stealth` package) as executable Lean definitions, and proves or refutes the
frozen specification claims about them.

Modelling conventions:
* Go `time.Time` / `time.Duration` values are modelled as rationals (ℚ); the
  zero `time.Time` of a map miss is modelled as `Option.none`.
* Go `float64` arithmetic (jitter, Bézier evaluation) is modelled as exact
  rational arithmetic; Go integer division (which truncates toward zero) is
  modelled with `Int.tdiv`.
* `math/rand` draws are explicit parameters: a `rand.Float64()` draw is a
  rational `u` with `0 ≤ u ≤ 1`, an `rng.Intn (hi-lo+1)` draw is an integer
  in `[0, hi-lo]`.
* A Go `context.Context` is modelled by a Boolean `ctxDone` saying whether the
  cancellation signal fires before the in-flight wait would elapse.
-/

/-- The four LinkedIn action categories (`ActionSearch` … `ActionBrowse`,
`ratelimit` package). The Go type is a string; only these four constants are
ever used, so the closed enumeration of the spec's data model is faithful. -/
inductive ActionType where
  | search
  | connect
  | message
  | browse
deriving DecidableEq, Repr

/-- Translation of `ratelimit.Config`, field for field.
Durations are rationals, counters/limits are integers. -/
structure Config where
  MinDelay : ℚ
  MaxDelay : ℚ
  SearchDelay : ℚ
  ConnectDelay : ℚ
  MessageDelay : ℚ
  DailySearches : ℤ
  DailyConnects : ℤ
  DailyMessages : ℤ
  HourlySearches : ℤ
  HourlyConnects : ℤ
  HourlyMessages : ℤ
  BurstLimit : ℤ
  BurstWindow : ℚ
  RandomizeDelay : Bool
  JitterPercent : ℚ

/-- The mutable state of `ratelimit.RateLimiter`: the three per-action maps
(`lastActionTime`, `actionCounts`, `dailyCounts`).  A missing key of the Go
`map[string]time.Time` reads as the zero time, modelled by `none`; the integer
maps read `0` for missing keys, so total functions with default `0` are the
translation. -/
structure RLState where
  lastActionTime : ActionType → Option ℚ
  actionCounts : ActionType → ℤ
  dailyCounts : ActionType → ℤ

/-- The error outcomes of `WaitForPermission`: the three quota denial errors
built with `fmt.Errorf`, plus `ctx.Err()` on cancellation. -/
inductive RLError where
  | dailyLimitExceeded
  | hourlyLimitExceeded
  | burstExceeded
  | cancelled
deriving DecidableEq, Repr

/-- The `switch` of `checkDailyLimits`: the daily limit configured for an
action type; `none` encodes the `default` branch (no daily limit for other
actions). -/
def dailyLimit (cfg : Config) : ActionType → Option ℤ
  | .search => some cfg.DailySearches
  | .connect => some cfg.DailyConnects
  | .message => some cfg.DailyMessages
  | .browse => none

/-- The `switch` of `checkHourlyLimits`: the hourly limit configured for an
action type; `none` encodes the `default` branch (no hourly limit). -/
def hourlyLimit (cfg : Config) : ActionType → Option ℤ
  | .search => some cfg.HourlySearches
  | .connect => some cfg.HourlyConnects
  | .message => some cfg.HourlyMessages
  | .browse => none

/-- Translation of `RateLimiter.checkDailyLimits`: error iff the type has a positive daily
limit already reached by `dailyCounts`. -/
def checkDailyLimits (cfg : Config) (st : RLState) (action : ActionType) :
    Option RLError :=
  match dailyLimit cfg action with
  | none => none
  | some limit =>
      if 0 < limit ∧ limit ≤ st.dailyCounts action then
        some RLError.dailyLimitExceeded
      else none

/-- Translation of `RateLimiter.checkHourlyLimits`: error iff the type has a positive hourly
limit already reached by `actionCounts`. -/
def checkHourlyLimits (cfg : Config) (st : RLState) (action : ActionType) :
    Option RLError :=
  match hourlyLimit cfg action with
  | none => none
  | some limit =>
      if 0 < limit ∧ limit ≤ st.actionCounts action then
        some RLError.hourlyLimitExceeded
      else none

/-- Translation of `RateLimiter.checkBurstProtection`: with a positive `BurstLimit`, error iff
the last action of the type is within `BurstWindow` of `now` and
`actionCounts` has reached `BurstLimit`. -/
def checkBurstProtection (cfg : Config) (st : RLState) (action : ActionType)
    (now : ℚ) : Option RLError :=
  if cfg.BurstLimit ≤ 0 then none
  else
    match st.lastActionTime action with
    | none => none
    | some lastAction =>
        if now - lastAction < cfg.BurstWindow ∧
            cfg.BurstLimit ≤ st.actionCounts action then
          some RLError.burstExceeded
        else none

/-- The `switch` of `calculateDelay`: the action-specific delay
(`SearchDelay`/`ConnectDelay`/`MessageDelay`, `MinDelay` in the `default`
branch). -/
def typeDelay (cfg : Config) : ActionType → ℚ
  | .search => cfg.SearchDelay
  | .connect => cfg.ConnectDelay
  | .message => cfg.MessageDelay
  | .browse => cfg.MinDelay

/-- Translation of `RateLimiter.calculateDelay`: 0 for the first action of a type; otherwise
the remaining part of `max (MinDelay, typeDelay)` not yet covered by the time
since the last action. -/
def calculateDelay (cfg : Config) (st : RLState) (action : ActionType)
    (now : ℚ) : ℚ :=
  match st.lastActionTime action with
  | none => 0
  | some lastAction =>
      let timeSinceLast := now - lastAction
      let requiredDelay := typeDelay cfg action
      let requiredDelay :=
        if cfg.MinDelay > requiredDelay then cfg.MinDelay else requiredDelay
      if timeSinceLast ≥ requiredDelay then 0 else requiredDelay - timeSinceLast

/-- Translation of `RateLimiter.addJitter`: perturb `delay` by `(2u-1) · delay ·
JitterPercent/100` for a uniform draw `u ∈ [0,1]`, clamped to be
non-negative; identity when `JitterPercent ≤ 0`. -/
def addJitter (cfg : Config) (u : ℚ) (delay : ℚ) : ℚ :=
  if cfg.JitterPercent ≤ 0 then delay
  else
    let jitter := delay * cfg.JitterPercent / 100
    let randomJitter := (u * 2 - 1) * jitter
    let newDelay := delay + randomJitter
    if newDelay < 0 then 0 else newDelay

/-- Translation of `RateLimiter.updateTracking`: set `lastActionTime` to the commit instant
and increment both counters of the type. (The Go method also spawns the
`hourlyReset` goroutine; that timer's effect is modelled separately by
`timerHourlyCount`.) -/
def updateTracking (st : RLState) (action : ActionType) (now : ℚ) : RLState where
  lastActionTime := fun b => if b = action then some now else st.lastActionTime b
  actionCounts := fun b =>
    if b = action then st.actionCounts b + 1 else st.actionCounts b
  dailyCounts := fun b =>
    if b = action then st.dailyCounts b + 1 else st.dailyCounts b

/-- Translation of `RateLimiter.WaitForPermission`, sequentialized: run the three checks in
order (each denial returns the error with the state untouched); compute the
delay, jitter it when `RandomizeDelay`; when the resulting delay is positive,
race the sleep against the context (`ctxDone = true` means the cancellation
signal fires before the sleep elapses, returning `ctx.Err()` without any
commit); otherwise — and after a completed sleep — commit via
`updateTracking` at the instant the wait ends.  The returned state equals the
input state exactly on every error path, mirroring the early `return err`
statements that precede all mutation. -/
def WaitForPermission (cfg : Config) (st : RLState) (action : ActionType)
    (now : ℚ) (u : ℚ) (ctxDone : Bool) : Option RLError × RLState :=
  match checkDailyLimits cfg st action with
  | some e => (some e, st)
  | none =>
    match checkHourlyLimits cfg st action with
    | some e => (some e, st)
    | none =>
      match checkBurstProtection cfg st action now with
      | some e => (some e, st)
      | none =>
        let delay := calculateDelay cfg st action now
        let delay := if cfg.RandomizeDelay then addJitter cfg u delay else delay
        if 0 < delay then
          if ctxDone then (some RLError.cancelled, st)
          else (none, updateTracking st action (now + delay))
        else (none, updateTracking st action now)

/-- The effective delay slept by an admitted `WaitForPermission` call: the
computed delay, jittered when `RandomizeDelay` is set (lines 101–107 of the
Go method). -/
def effDelay (cfg : Config) (st : RLState) (a : ActionType) (now u : ℚ) : ℚ :=
  if cfg.RandomizeDelay then addJitter cfg u (calculateDelay cfg st a now)
  else calculateDelay cfg st a now

/-- Runs `n` sequential `WaitForPermission` calls for one action type with a live
context, threading the state; returns the final state and the list of
per-call results. `times i` / `us i` are the call instant and jitter draw of
the `i`-th call. -/
def runSeq (cfg : Config) (a : ActionType) (times us : ℕ → ℚ) :
    ℕ → RLState → RLState × List (Option RLError)
  | 0, st => (st, [])
  | n + 1, st =>
      let prev := runSeq cfg a times us n st
      let call := WaitForPermission cfg prev.1 a (times n) (us n) false
      (call.2, prev.2 ++ [call.1])

/-- One hour, in the seconds-valued integer time scale of the timer model. -/
def hourSec : ℤ := 3600

/-- Insert a timed event into a list sorted by time (strictly-smaller goes
first, so the relative order of equal-time events is kept). -/
def insertEv (e : ℤ × Bool) : List (ℤ × Bool) → List (ℤ × Bool)
  | [] => [e]
  | f :: rest => if e.1 < f.1 then e :: f :: rest else f :: insertEv e rest

/-- Sort a list of timed events by time (insertion sort). -/
def sortEvents : List (ℤ × Bool) → List (ℤ × Bool)
  | [] => []
  | e :: rest => insertEv e (sortEvents rest)

/-- Replay timed counter events in order: an admit event (`false`) is the
`actionCounts[action]++` of `updateTracking`; a reset event (`true`) is the
`actionCounts[action] = 0` performed by the `hourlyReset` goroutine. -/
def applyEvents : List (ℤ × Bool) → ℤ → ℤ
  | [], c => c
  | (_, isReset) :: rest, c => applyEvents rest (if isReset then 0 else c + 1)

/-- The hourly counter of one action type at instant `T` (whole seconds),
under the code's timer design: every admit at instant `a` increments the
counter and spawns a `hourlyReset` goroutine that zeroes it at `a + 1h`
(`time.Sleep(time.Hour)` then `actionCounts[action] = 0`).  All events up to
`T` are replayed in time order starting from 0. -/
def timerHourlyCount (admits : List ℤ) (T : ℤ) : ℤ :=
  let evs := admits.map (fun a => (a, false)) ++
    admits.map (fun a => (a + hourSec, true))
  applyEvents (sortEvents (evs.filter (fun e => e.1 ≤ T))) 0

/-- Modelled from the spec: the pre-jitter wait of §4.1 step 7,
`wait = max 0 (max minDelay typeDelay[type] - elapsed)`, and `0` when the type
has no prior committed action.  Stated by C6 as the meaning of
`calculateDelay`. -/
def specWait (cfg : Config) (st : RLState) (action : ActionType)
    (now : ℚ) : ℚ :=
  match st.lastActionTime action with
  | none => 0
  | some lastAction =>
      max 0 (max cfg.MinDelay (typeDelay cfg action) - (now - lastAction))

/-- A 2-D point (`stealth.Point`). -/
structure Point where
  x : ℚ
  y : ℚ
deriving DecidableEq, Repr

/-- Translation of `StealthManager.bezierPoint`: the cubic Bézier formula, evaluated
coordinate-wise at parameter `t`. -/
def bezierPoint (p1x p1y cp1x cp1y cp2x cp2y p2x p2y t : ℚ) : Point where
  x := (1 - t) ^ 3 * p1x + 3 * (1 - t) ^ 2 * t * cp1x +
    3 * (1 - t) * t ^ 2 * cp2x + t ^ 3 * p2x
  y := (1 - t) ^ 3 * p1y + 3 * (1 - t) ^ 2 * t * cp1y +
    3 * (1 - t) * t ^ 2 * cp2y + t ^ 3 * p2y

/-- Translation of `StealthManager.generateBezierPath`: control points at 25% / 75% of the
segment with the Y coordinates perturbed by `rng.Float64()*50 - 25` (the two
draws are `u1`, `u2`); then the cubic Bézier evaluated at `t = i/steps` for
`i = 0..steps` with `steps = 50`. -/
def generateBezierPath (fromX fromY toX toY u1 u2 : ℚ) : List Point :=
  let cp1X := fromX + (toX - fromX) * (25 / 100)
  let cp1Y := fromY + (toY - fromY) * (1 / 10) + u1 * 50 - 25
  let cp2X := fromX + (toX - fromX) * (75 / 100)
  let cp2Y := fromY + (toY - fromY) * (9 / 10) + u2 * 50 - 25
  let steps : ℕ := 50
  (List.range (steps + 1)).map fun i =>
    bezierPoint fromX fromY cp1X cp1Y cp2X cp2Y toX toY
      ((Nat.cast i : ℚ) / (Nat.cast steps : ℚ))

/-- Translation of `stealth.ScrollingConfig`: the fields read by `HumanLikeScroll`. -/
structure ScrollingConfig where
  VariableSpeed : Bool
  Acceleration : Bool
  Deceleration : Bool
  ScrollBack : Bool
  MinSpeed : ℤ
  MaxSpeed : ℤ

/-- The chunk-speed computation of one `HumanLikeScroll` loop iteration:
choose the speed (a uniform draw in `[MinSpeed, MaxSpeed]` — so
`draw ∈ [0, MaxSpeed-MinSpeed]` — when `VariableSpeed`, the midpoint
otherwise), then apply the 0.7× acceleration factor while
`remaining > scrollAmount/2`, or the 1.3× deceleration factor when
`remaining < scrollAmount/4` (the float multiplications, truncated by Go's
`int(...)`, are modelled by `Int.tdiv` of the exact rational). -/
def chunkSpeed (cfg : ScrollingConfig) (scrollAmount draw remaining : ℤ) : ℤ :=
  let scrollSpeed :=
    if cfg.VariableSpeed then cfg.MinSpeed + draw
    else (cfg.MinSpeed + cfg.MaxSpeed).tdiv 2
  if cfg.Acceleration ∧ scrollAmount.tdiv 2 < remaining then
    (7 * scrollSpeed).tdiv 10
  else if cfg.Deceleration ∧ remaining < scrollAmount.tdiv 4 then
    (13 * scrollSpeed).tdiv 10
  else scrollSpeed

/-- One iteration of the `HumanLikeScroll` loop body: the chunk speed,
clamped to `remaining`; returns the emitted chunk and the new `remaining`. -/
def scrollStep (cfg : ScrollingConfig) (scrollAmount draw remaining : ℤ) :
    ℤ × ℤ :=
  let scrollSpeed := chunkSpeed cfg scrollAmount draw remaining
  let scrollSpeed := if remaining < scrollSpeed then remaining else scrollSpeed
  (scrollSpeed, remaining - scrollSpeed)

/-- The `for remaining > 0` loop of `HumanLikeScroll`, fuelled: returns the
list of emitted chunk magnitudes, or `none` when `fuel` iterations did not
bring `remaining` to 0 (the Go loop would still be running). `i` indexes the
per-iteration random draws. -/
def scrollLoop (cfg : ScrollingConfig) (scrollAmount : ℤ) (draws : ℕ → ℤ) :
    ℕ → ℕ → ℤ → Option (List ℤ)
  | 0, _, remaining => if remaining ≤ 0 then some [] else none
  | fuel + 1, i, remaining =>
      if remaining ≤ 0 then some []
      else
        let s := scrollStep cfg scrollAmount (draws i) remaining
        match scrollLoop cfg scrollAmount draws fuel (i + 1) s.2 with
        | none => none
        | some rest => some (s.1 :: rest)

/-- Translation of `StealthManager.HumanLikeScroll`: the sequence of `Mouse.Scroll` amounts
it issues.  `remaining` starts at `|scrollAmount|` with `direction = ±1`; each
loop chunk is issued as `chunk * direction`; when `ScrollBack` is enabled and
the 20%-probability draw hits (`doScrollBack`), the overshoot-and-correct pair
`[-scrollAmount/10, +scrollAmount/10]` is appended.  `none` when the loop does
not finish within `fuel` iterations. -/
def HumanLikeScroll (cfg : ScrollingConfig) (scrollAmount : ℤ)
    (draws : ℕ → ℤ) (doScrollBack : Bool) (fuel : ℕ) : Option (List ℤ) :=
  let direction : ℤ := if scrollAmount < 0 then -1 else 1
  let remaining : ℤ := if scrollAmount < 0 then -scrollAmount else scrollAmount
  match scrollLoop cfg scrollAmount draws fuel 0 remaining with
  | none => none
  | some chunks =>
      let steps := chunks.map fun c => c * direction
      if cfg.ScrollBack ∧ doScrollBack then
        let scrollBack := scrollAmount.tdiv 10
        some (steps ++ [-scrollBack, scrollBack])
      else some steps

/-- A fresh `RateLimiter` state: empty maps. -/
def freshState : RLState where
  lastActionTime := fun _ => none
  actionCounts := fun _ => 0
  dailyCounts := fun _ => 0

/-- The configuration of the C4 scenario: `dailyLimit[Connect]=2`,
`hourlyLimit[Connect]=5`, `burstLimit=1`, `burstWindow=30s`, `connectDelay=0`,
no minimum delay, no jitter. -/
def cfgC4 : Config where
  MinDelay := 0
  MaxDelay := 0
  SearchDelay := 0
  ConnectDelay := 0
  MessageDelay := 0
  DailySearches := 0
  DailyConnects := 2
  DailyMessages := 0
  HourlySearches := 0
  HourlyConnects := 5
  HourlyMessages := 0
  BurstLimit := 1
  BurstWindow := 30
  RandomizeDelay := false
  JitterPercent := 0

/-- Witness configuration for C1: daily connect limit 3, hourly and burst
limits disabled. -/
def cfgC1 : Config where
  MinDelay := 0
  MaxDelay := 0
  SearchDelay := 0
  ConnectDelay := 0
  MessageDelay := 0
  DailySearches := 0
  DailyConnects := 3
  DailyMessages := 0
  HourlySearches := 0
  HourlyConnects := 0
  HourlyMessages := 0
  BurstLimit := 0
  BurstWindow := 0
  RandomizeDelay := false
  JitterPercent := 0

/-- A state whose daily connect count has already reached 3. -/
def stAtLimit : RLState where
  lastActionTime := fun _ => none
  actionCounts := fun _ => 0
  dailyCounts := fun _ => 3

/-- Witness configuration for C3/C5: 10-unit minimum delay, 20% jitter. -/
def cfgJit : Config where
  MinDelay := 10
  MaxDelay := 0
  SearchDelay := 0
  ConnectDelay := 0
  MessageDelay := 0
  DailySearches := 0
  DailyConnects := 0
  DailyMessages := 0
  HourlySearches := 0
  HourlyConnects := 0
  HourlyMessages := 0
  BurstLimit := 0
  BurstWindow := 0
  RandomizeDelay := true
  JitterPercent := 20

/-- A state whose every action type last ran at instant 0. -/
def stRan0 : RLState where
  lastActionTime := fun _ => some 0
  actionCounts := fun _ => 1
  dailyCounts := fun _ => 1

/-- The all-zero configuration (every limit and delay disabled). -/
def cfgZero : Config where
  MinDelay := 0
  MaxDelay := 0
  SearchDelay := 0
  ConnectDelay := 0
  MessageDelay := 0
  DailySearches := 0
  DailyConnects := 0
  DailyMessages := 0
  HourlySearches := 0
  HourlyConnects := 0
  HourlyMessages := 0
  BurstLimit := 0
  BurstWindow := 0
  RandomizeDelay := false
  JitterPercent := 0

/-- The degenerate scrolling configuration of the C9 counterexample:
fixed speed 1 with acceleration enabled, so `int(float64(1) * 0.7) = 0`. -/
def cfgScrollBad : ScrollingConfig where
  VariableSpeed := false
  Acceleration := true
  Deceleration := false
  ScrollBack := false
  MinSpeed := 1
  MaxSpeed := 1

/-- A well-behaved scrolling configuration for the C9 witness. -/
def cfgScrollGood : ScrollingConfig where
  VariableSpeed := true
  Acceleration := true
  Deceleration := true
  ScrollBack := false
  MinSpeed := 2
  MaxSpeed := 4

/-- The state of the C4 scenario after the first admitted connect at
instant `t`. -/
def stC4a (t : ℚ) : RLState := updateTracking freshState ActionType.connect t

/-- The burst check returns either no error or the burst error — never
a daily or hourly error. -/
theorem checkBurstProtection_cases (cfg : Config) (st : RLState)
    (a : ActionType) (now : ℚ) :
    checkBurstProtection cfg st a now = none ∨
      checkBurstProtection cfg st a now = some RLError.burstExceeded := by
  unfold checkBurstProtection
  split
  · exact Or.inl rfl
  · split
    · exact Or.inl rfl
    · split
      · exact Or.inr rfl
      · exact Or.inl rfl

/-- A call whose daily count has reached a positive daily limit is denied
with the daily error, before any wait and with the state untouched. -/
theorem daily_denial (cfg : Config) (st : RLState) (a : ActionType)
    (now u : ℚ) (c : Bool) (L : ℤ) (hL : dailyLimit cfg a = some L)
    (h0 : 0 < L) (hle : L ≤ st.dailyCounts a) :
    WaitForPermission cfg st a now u c = (some RLError.dailyLimitExceeded, st) := by
  have hd : checkDailyLimits cfg st a = some RLError.dailyLimitExceeded := by
    unfold checkDailyLimits
    rw [hL]
    exact if_pos ⟨h0, hle⟩
  unfold WaitForPermission
  rw [hd]

/-- A call whose three admission checks pass and whose context stays live
always commits: no error, and the state updated by `updateTracking` at some
instant. -/
theorem WaitForPermission_ok (cfg : Config) (st : RLState) (a : ActionType)
    (now u : ℚ)
    (h1 : checkDailyLimits cfg st a = none)
    (h2 : checkHourlyLimits cfg st a = none)
    (h3 : checkBurstProtection cfg st a now = none) :
    ∃ τ, WaitForPermission cfg st a now u false = (none, updateTracking st a τ) := by
  unfold WaitForPermission
  rw [h1, h2, h3]
  dsimp only
  split
  · split
    · exact ⟨_, rfl⟩
    · exact ⟨_, rfl⟩
  · split
    · exact ⟨_, rfl⟩
    · exact ⟨_, rfl⟩

/-- The computed wait `calculateDelay` agrees with the spec formula
`max 0 (max minDelay typeDelay - elapsed)` (0 with no prior action). -/
theorem calculateDelay_eq (cfg : Config) (st : RLState) (a : ActionType)
    (now : ℚ) : calculateDelay cfg st a now = specWait cfg st a now := by
  unfold calculateDelay specWait
  cases st.lastActionTime a with
  | none => rfl
  | some lastAction =>
      dsimp only
      have hR : (if cfg.MinDelay > typeDelay cfg a then cfg.MinDelay
          else typeDelay cfg a) = max cfg.MinDelay (typeDelay cfg a) := by
        rcases le_or_lt cfg.MinDelay (typeDelay cfg a) with hm | hm
        · rw [if_neg (not_lt.mpr hm), max_eq_right hm]
        · rw [if_pos hm, max_eq_left hm.le]
      rw [hR]
      split
      · next hge => rw [eq_comm, max_eq_left (by linarith)]
      · next hlt => push_neg at hlt; rw [eq_comm, max_eq_right (by linarith)]

/-- The pre-jitter wait is never negative. -/
theorem calculateDelay_nonneg (cfg : Config) (st : RLState) (a : ActionType)
    (now : ℚ) : 0 ≤ calculateDelay cfg st a now := by
  rw [calculateDelay_eq]
  unfold specWait
  cases st.lastActionTime a with
  | none => exact le_refl 0
  | some lastAction => exact le_max_left 0 _

/-- The first component of `WaitForPermission` is one of: success, the daily
check's verdict, the hourly check's verdict, the burst check's verdict, or
the cancellation error. -/
theorem WaitForPermission_fst_cases (cfg : Config) (st : RLState)
    (a : ActionType) (now u : ℚ) (c : Bool) :
    (WaitForPermission cfg st a now u c).1 = none ∨
    (WaitForPermission cfg st a now u c).1 = checkDailyLimits cfg st a ∨
    (WaitForPermission cfg st a now u c).1 = checkHourlyLimits cfg st a ∨
    (WaitForPermission cfg st a now u c).1 = checkBurstProtection cfg st a now ∨
    (WaitForPermission cfg st a now u c).1 = some RLError.cancelled := by
  unfold WaitForPermission
  cases hd : checkDailyLimits cfg st a with
  | some e => simp
  | none =>
    cases hh : checkHourlyLimits cfg st a with
    | some e => simp
    | none =>
      cases hb : checkBurstProtection cfg st a now with
      | some e => simp
      | none =>
        dsimp only
        split
        · split
          · split
            · simp
            · simp
          · simp
        · split
          · split
            · simp
            · simp
          · simp

/-- C2: the claim says the hourly counter is reset to 0 exactly once per
window boundary and never mid-window.  The code instead spawns one
`hourlyReset` goroutine per admit, each zeroing the counter one hour after
its own admit.  Evaluating the timer model at admits `t = 0s, 1800s, 4000s`:
at `T = 3000s` the count is 2 (both early admits visible); the resets fire at
`3600s` and `5400s`, so at `T = 5000s` the count is 1 (only the `4000s`
admit), but at `T = 5500s` it is already `0` again — the `5400s` reset fired
in the interior of the window containing the `4000s` admit, a second reset
within one hour of the previous one. -/
theorem C2_hourly_reset_fires_mid_window :
    timerHourlyCount [0, 1800, 4000] 3000 = 2 ∧
    timerHourlyCount [0, 1800, 4000] 5000 = 1 ∧
    timerHourlyCount [0, 1800, 4000] 5500 = 0 := by
  refine ⟨by decide, by decide, by decide⟩

/-- C6: for every action type and call time, the computed pre-jitter wait
equals `max 0 (max minDelay typeDelay[type] - elapsed)`, and is 0 when the
type has no prior committed action (`specWait` is exactly that formula, with
`typeDelay` reading `searchDelay`/`connectDelay`/`messageDelay` for the three
limited types and `minDelay` otherwise). -/
theorem C6_calculateDelay_formula (cfg : Config) (st : RLState)
    (a : ActionType) (now : ℚ) :
    calculateDelay cfg st a now = specWait cfg st a now :=
  calculateDelay_eq cfg st a now

/-- C7: the claim says a zero-wait call still checks the cancellation signal
once before commit.  The code only consults the context inside the
`if delay > 0` block, so with a fresh limiter (wait 0) and an
already-cancelled context the call returns success and commits the action:
the count rises to 1 instead of the call failing with `Cancelled`. -/
theorem C7_zero_wait_skips_cancellation_check :
    WaitForPermission cfgZero freshState ActionType.search 0 0 true =
      (none, updateTracking freshState ActionType.search 0) ∧
    (WaitForPermission cfgZero freshState ActionType.search 0 0 true).2.dailyCounts
      ActionType.search = 1 := by
  exact ⟨rfl, rfl⟩

/-- C10: for the Browse action type, `WaitForPermission` never returns a
daily-limit or hourly-limit error, whatever the configuration, the state and
the context: only burst protection and cancellation can fail it. -/
theorem C10_browse_never_quota_limited (cfg : Config) (st : RLState)
    (now u : ℚ) (c : Bool) :
    (WaitForPermission cfg st ActionType.browse now u c).1 ≠
      some RLError.dailyLimitExceeded ∧
    (WaitForPermission cfg st ActionType.browse now u c).1 ≠
      some RLError.hourlyLimitExceeded := by
  have hd : checkDailyLimits cfg st ActionType.browse = none := rfl
  have hh : checkHourlyLimits cfg st ActionType.browse = none := rfl
  rcases WaitForPermission_fst_cases cfg st ActionType.browse now u c with
    h | h | h | h | h <;> rw [h]
  · simp
  · rw [hd]; simp
  · rw [hh]; simp
  · rcases checkBurstProtection_cases cfg st ActionType.browse now with hb | hb <;>
      rw [hb] <;> simp
  · simp

/-- The jitter transform never returns a negative delay (for a non-negative input). -/
theorem addJitter_nonneg (cfg : Config) (u d : ℚ) (hd : 0 ≤ d) :
    0 ≤ addJitter cfg u d := by
  unfold addJitter
  split
  · exact hd
  · dsimp only
    split
    · exact le_refl 0
    · next h => push_neg at h; exact h

/-- The effective delay of an admitted call is never negative. -/
theorem effDelay_nonneg (cfg : Config) (st : RLState) (a : ActionType)
    (now u : ℚ) : 0 ≤ effDelay cfg st a now u := by
  unfold effDelay
  split
  · exact addJitter_nonneg cfg u _ (calculateDelay_nonneg cfg st a now)
  · exact calculateDelay_nonneg cfg st a now

/-- A call whose three checks pass and whose context stays live commits at
instant `now + effDelay`: the state after a zero-delay commit (`now`) is the
`effDelay = 0` case. -/
theorem WaitForPermission_commit_time (cfg : Config) (st : RLState)
    (a : ActionType) (now u : ℚ)
    (h1 : checkDailyLimits cfg st a = none)
    (h2 : checkHourlyLimits cfg st a = none)
    (h3 : checkBurstProtection cfg st a now = none) :
    WaitForPermission cfg st a now u false =
      (none, updateTracking st a (now + effDelay cfg st a now u)) := by
  unfold WaitForPermission
  rw [h1, h2, h3]
  dsimp only
  rw [show (if cfg.RandomizeDelay then addJitter cfg u (calculateDelay cfg st a now)
      else calculateDelay cfg st a now) = effDelay cfg st a now u from rfl]
  split
  · rfl
  · next h =>
    push_neg at h
    have h0 : effDelay cfg st a now u = 0 :=
      le_antisymm h (effDelay_nonneg cfg st a now u)
    rw [h0, add_zero]

/-- C3: if the cancellation signal fires while `WaitForPermission` is
suspended in its computed positive (post-jitter) wait, the call returns the
cancellation error and performs no commit: the returned state is exactly the
pre-call state, so the daily count, hourly count and last-action time of the
requested type all keep their pre-call values. -/
theorem C3_cancellation_aborts_without_commit (cfg : Config) (st : RLState)
    (a : ActionType) (now u : ℚ)
    (h1 : checkDailyLimits cfg st a = none)
    (h2 : checkHourlyLimits cfg st a = none)
    (h3 : checkBurstProtection cfg st a now = none)
    (h4 : 0 < effDelay cfg st a now u) :
    WaitForPermission cfg st a now u true = (some RLError.cancelled, st) := by
  unfold WaitForPermission
  rw [h1, h2, h3]
  dsimp only
  rw [show (if cfg.RandomizeDelay then addJitter cfg u (calculateDelay cfg st a now)
      else calculateDelay cfg st a now) = effDelay cfg st a now u from rfl]
  rw [if_pos h4]
  rfl

/-- Witness for C3: minimum delay 10 with 20% jitter, previous action of the
type at instant 0, call at instant 1 with draw 1/2 — the 9-unit wait is
interrupted, the error is the cancellation error and the state is exactly the
pre-call state. -/
theorem C3_witness :
    WaitForPermission cfgJit stRan0 ActionType.browse 1 (1/2) true =
      (some RLError.cancelled, stRan0) := by
  have h4 : 0 < effDelay cfgJit stRan0 ActionType.browse 1 (1/2) := by
    norm_num [effDelay, cfgJit, addJitter, calculateDelay, stRan0, typeDelay]
  exact C3_cancellation_aborts_without_commit cfgJit stRan0 ActionType.browse 1
    (1/2) rfl rfl rfl h4

/-- C1: (i) for every action type with a positive daily limit, every call in
a state whose daily count has reached that limit returns the daily-quota
error with the state — daily count, hourly count, last-action time —
exactly as before, and this holds whether or not the context is cancelled
(no wait is reached); (ii) conversely, with the hourly and burst limits
disabled and a live context, `n` sequential calls keeping the daily count
within the limit all succeed, the daily count rising by exactly `n`. -/
theorem C1_daily_quota_boundary :
    (∀ (cfg : Config) (st : RLState) (a : ActionType) (now u : ℚ) (c : Bool)
        (L : ℤ), dailyLimit cfg a = some L → 0 < L → L ≤ st.dailyCounts a →
        WaitForPermission cfg st a now u c =
          (some RLError.dailyLimitExceeded, st)) ∧
    (∀ (cfg : Config) (a : ActionType) (times us : ℕ → ℚ) (st : RLState)
        (L : ℤ) (n : ℕ), dailyLimit cfg a = some L →
        (∀ H, hourlyLimit cfg a = some H → H ≤ 0) →
        cfg.BurstLimit ≤ 0 →
        st.dailyCounts a + n ≤ L →
        (∀ e ∈ (runSeq cfg a times us n st).2, e = none) ∧
        (runSeq cfg a times us n st).1.dailyCounts a = st.dailyCounts a + n) := by
  constructor
  · exact fun cfg st a now u c L hL h0 hle =>
      daily_denial cfg st a now u c L hL h0 hle
  · intro cfg a times us st L n hL hH hB
    induction n with
    | zero =>
        intro _
        exact ⟨by simp [runSeq], by simp [runSeq]⟩
    | succ n ih =>
        intro hle
        have hle' : st.dailyCounts a + n ≤ L := by
          push_cast at hle ⊢
          linarith
        obtain ⟨ihall, ihcount⟩ := ih hle'
        have hcount_lt : (runSeq cfg a times us n st).1.dailyCounts a < L := by
          rw [ihcount]
          push_cast at hle
          linarith
        have hd : checkDailyLimits cfg (runSeq cfg a times us n st).1 a = none := by
          unfold checkDailyLimits
          rw [hL]
          exact if_neg fun hcon => absurd hcon.2 (not_le.mpr hcount_lt)
        have hh : checkHourlyLimits cfg (runSeq cfg a times us n st).1 a = none := by
          unfold checkHourlyLimits
          cases hHl : hourlyLimit cfg a with
          | none => rfl
          | some H => exact if_neg fun hcon => absurd hcon.1 (not_lt.mpr (hH H hHl))
        have hb : checkBurstProtection cfg (runSeq cfg a times us n st).1 a
            (times n) = none := by
          unfold checkBurstProtection
          rw [if_pos hB]
        have hcall := WaitForPermission_commit_time cfg
          (runSeq cfg a times us n st).1 a (times n) (us n) hd hh hb
        constructor
        · intro e he
          simp only [runSeq, hcall] at he
          rcases List.mem_append.mp he with h | h
          · exact ihall e h
          · simpa using h
        · simp only [runSeq]
          rw [hcall]
          dsimp only
          have hinc : (updateTracking (runSeq cfg a times us n st).1 a
              (times n + effDelay cfg (runSeq cfg a times us n st).1 a (times n)
                (us n))).dailyCounts a =
              (runSeq cfg a times us n st).1.dailyCounts a + 1 := by
            simp [updateTracking]
          rw [hinc, ihcount]
          push_cast
          ring

/-- Witness for C1: with daily connect limit 3 and a count already at 3, the
call is denied with the state untouched; and from a fresh state, 2 sequential
connect calls both succeed and leave the daily count at 2. -/
theorem C1_witness :
    WaitForPermission cfgC1 stAtLimit ActionType.connect 0 0 false =
      (some RLError.dailyLimitExceeded, stAtLimit) ∧
    ((∀ e ∈ (runSeq cfgC1 ActionType.connect (fun _ => 0) (fun _ => 0) 2
        freshState).2, e = none) ∧
      (runSeq cfgC1 ActionType.connect (fun _ => 0) (fun _ => 0) 2
        freshState).1.dailyCounts ActionType.connect =
        freshState.dailyCounts ActionType.connect + (2 : ℕ)) := by
  constructor
  · exact C1_daily_quota_boundary.1 cfgC1 stAtLimit ActionType.connect 0 0 false 3
      rfl (by norm_num) (by norm_num [stAtLimit])
  · exact C1_daily_quota_boundary.2 cfgC1 ActionType.connect (fun _ => 0)
      (fun _ => 0) freshState 3 2 rfl
      (by intro H h; simp only [hourlyLimit, cfgC1, Option.some.injEq] at h; omega)
      (by norm_num [cfgC1]) (by norm_num [freshState])

/-- C4: under `dailyLimit[Connect]=2, hourlyLimit[Connect]=5, burstLimit=1,
burstWindow=30, connectDelay=0` and a fresh ledger: the first connect call at
`t` computes a zero wait and commits at `t` (admits immediately); a second
call at `t+5` is denied `BurstExceeded` with the state untouched; a call at
`t+31` admits and the daily count becomes 2; thereafter every connect call —
at any time, in any state whose daily connect count is ≥ 2, which the denial
itself preserves — is denied `DailyQuotaExceeded`. -/
theorem C4_burst_then_daily_scenario (t : ℚ) :
    calculateDelay cfgC4 freshState ActionType.connect t = 0 ∧
    WaitForPermission cfgC4 freshState ActionType.connect t 0 false =
      (none, stC4a t) ∧
    WaitForPermission cfgC4 (stC4a t) ActionType.connect (t + 5) 0 false =
      (some RLError.burstExceeded, stC4a t) ∧
    (WaitForPermission cfgC4 (stC4a t) ActionType.connect (t + 31) 0 false).1 =
      none ∧
    (WaitForPermission cfgC4 (stC4a t) ActionType.connect
      (t + 31) 0 false).2.dailyCounts ActionType.connect = 2 ∧
    (∀ (st' : RLState) (now' u' : ℚ) (c : Bool),
      2 ≤ st'.dailyCounts ActionType.connect →
      WaitForPermission cfgC4 st' ActionType.connect now' u' c =
        (some RLError.dailyLimitExceeded, st')) := by
  have h5 : t + 5 - t = (5 : ℚ) := by ring
  have h31 : t + 31 - t = (31 : ℚ) := by ring
  have hb3 : checkBurstProtection cfgC4 (stC4a t) ActionType.connect (t + 31) =
      none := by
    simp only [checkBurstProtection, cfgC4, stC4a, updateTracking, freshState, h31]
    norm_num
  have hcall3 := WaitForPermission_commit_time cfgC4 (stC4a t) ActionType.connect
    (t + 31) 0 rfl rfl hb3
  refine ⟨rfl, rfl, ?_, ?_, ?_, ?_⟩
  · have hb2 : checkBurstProtection cfgC4 (stC4a t) ActionType.connect (t + 5) =
        some RLError.burstExceeded := by
      simp only [checkBurstProtection, cfgC4, stC4a, updateTracking, freshState, h5]
      norm_num
    unfold WaitForPermission
    rw [hb2]
    rfl
  · rw [hcall3]
  · rw [hcall3]
    simp [updateTracking, stC4a, freshState]
  · intro st' now' u' c hge
    exact daily_denial cfgC4 st' ActionType.connect now' u' c 2 rfl (by norm_num) hge

/-- Witness for C4: the scenario instantiated at `t = 0`, with the final
universally-quantified denial applied to the post-scenario state at a later
instant of the same day. -/
theorem C4_witness :
    WaitForPermission cfgC4 (stC4a 0) ActionType.connect (0 + 5) 0 false =
      (some RLError.burstExceeded, stC4a 0) ∧
    (WaitForPermission cfgC4 (stC4a 0) ActionType.connect
      (0 + 31) 0 false).2.dailyCounts ActionType.connect = 2 ∧
    WaitForPermission cfgC4
      (WaitForPermission cfgC4 (stC4a 0) ActionType.connect (0 + 31) 0 false).2
      ActionType.connect 20000 0 false =
      (some RLError.dailyLimitExceeded,
        (WaitForPermission cfgC4 (stC4a 0) ActionType.connect (0 + 31) 0 false).2) :=
  ⟨(C4_burst_then_daily_scenario 0).2.2.1,
   (C4_burst_then_daily_scenario 0).2.2.2.2.1,
   (C4_burst_then_daily_scenario 0).2.2.2.2.2 _ 20000 0 false
     (le_of_eq ((C4_burst_then_daily_scenario 0).2.2.2.2.1).symm)⟩

/-- C8: for every pair of endpoints and every random control-point draw, the
generated curved path has exactly 51 points (fixed step count 50), starts
exactly at `(fromX, fromY)` (the Bézier at `t = 0`), ends exactly at
`(toX, toY)` (the Bézier at `t = 1`), and its `i`-th point is the Bézier
evaluation at `t = i/50`. -/
theorem C8_bezier_path_endpoints (fromX fromY toX toY u1 u2 : ℚ) :
    (generateBezierPath fromX fromY toX toY u1 u2).length = 51 ∧
    (generateBezierPath fromX fromY toX toY u1 u2)[0]? = some ⟨fromX, fromY⟩ ∧
    (generateBezierPath fromX fromY toX toY u1 u2)[50]? = some ⟨toX, toY⟩ ∧
    (∀ i : ℕ, i ≤ 50 →
      (generateBezierPath fromX fromY toX toY u1 u2)[i]? =
        some (bezierPoint fromX fromY
          (fromX + (toX - fromX) * (25 / 100))
          (fromY + (toY - fromY) * (1 / 10) + u1 * 50 - 25)
          (fromX + (toX - fromX) * (75 / 100))
          (fromY + (toY - fromY) * (9 / 10) + u2 * 50 - 25)
          toX toY ((i : ℚ) / 50))) := by
  have hgen : ∀ i : ℕ, i ≤ 50 →
      (generateBezierPath fromX fromY toX toY u1 u2)[i]? =
        some (bezierPoint fromX fromY
          (fromX + (toX - fromX) * (25 / 100))
          (fromY + (toY - fromY) * (1 / 10) + u1 * 50 - 25)
          (fromX + (toX - fromX) * (75 / 100))
          (fromY + (toY - fromY) * (9 / 10) + u2 * 50 - 25)
          toX toY ((i : ℚ) / 50)) := by
    intro i hi
    have hi' : i < 50 + 1 := by omega
    unfold generateBezierPath
    dsimp only
    rw [List.getElem?_map, List.getElem?_range hi', Option.map_some']
    norm_num
  refine ⟨by simp only [generateBezierPath, List.length_map, List.length_range],
    ?_, ?_, hgen⟩
  · rw [hgen 0 (by norm_num)]
    simp only [Nat.cast_zero, zero_div, bezierPoint, Option.some.injEq,
      Point.mk.injEq]
    constructor <;> ring
  · rw [hgen 50 (le_refl 50)]
    rw [show ((50 : ℕ) : ℚ) / 50 = 1 by norm_num]
    simp only [bezierPoint, Option.some.injEq, Point.mk.injEq]
    constructor <;> ring

/-- Witness for C8: the path from `(0,0)` to `(100,100)` with both draws
`1/2` has 51 points, the expected endpoints, and its point 25 is the Bézier
evaluation at `t = 25/50`. -/
theorem C8_witness :
    (generateBezierPath 0 0 100 100 (1/2) (1/2)).length = 51 ∧
    (generateBezierPath 0 0 100 100 (1/2) (1/2))[0]? = some ⟨0, 0⟩ ∧
    (generateBezierPath 0 0 100 100 (1/2) (1/2))[50]? = some ⟨100, 100⟩ ∧
    (generateBezierPath 0 0 100 100 (1/2) (1/2))[25]? =
      some (bezierPoint 0 0
        (0 + (100 - 0) * (25 / 100)) (0 + (100 - 0) * (1 / 10) + (1/2) * 50 - 25)
        (0 + (100 - 0) * (75 / 100)) (0 + (100 - 0) * (9 / 10) + (1/2) * 50 - 25)
        100 100 ((25 : ℕ) / 50)) :=
  ⟨(C8_bezier_path_endpoints 0 0 100 100 (1/2) (1/2)).1,
   (C8_bezier_path_endpoints 0 0 100 100 (1/2) (1/2)).2.1,
   (C8_bezier_path_endpoints 0 0 100 100 (1/2) (1/2)).2.2.1,
   (C8_bezier_path_endpoints 0 0 100 100 (1/2) (1/2)).2.2.2 25 (by norm_num)⟩

/-- With a non-negative `jitterPercent` and a draw `u ∈ [0,1]`, `addJitter`
moves a non-negative delay by at most `delay * jitterPercent / 100` in either
direction. -/
theorem addJitter_bounds (cfg : Config) (u d : ℚ) (hd : 0 ≤ d)
    (hp : 0 ≤ cfg.JitterPercent) (hu0 : 0 ≤ u) (hu1 : u ≤ 1) :
    d - d * cfg.JitterPercent / 100 ≤ addJitter cfg u d ∧
    addJitter cfg u d ≤ d + d * cfg.JitterPercent / 100 := by
  have hj0 : 0 ≤ d * cfg.JitterPercent / 100 := by positivity
  unfold addJitter
  split
  · constructor <;> linarith
  · dsimp only
    have hr1 : -(d * cfg.JitterPercent / 100) ≤
        (u * 2 - 1) * (d * cfg.JitterPercent / 100) := by
      nlinarith [mul_nonneg hu0 hj0]
    have hr2 : (u * 2 - 1) * (d * cfg.JitterPercent / 100) ≤
        d * cfg.JitterPercent / 100 := by
      nlinarith [mul_nonneg (by linarith : (0:ℚ) ≤ 1 - u) hj0]
    split
    · next hneg => constructor <;> linarith
    · next hpos => push_neg at hpos; constructor <;> linarith

/-- C5 (amended): for an admitted call of a type with a prior committed
action, with `jitterPercent ∈ [0,100]`, a uniform draw `u ∈ [0,1]`, a
non-negative required spacing and a call no earlier than the previous
action: the committed completion instant is never earlier than
`required * (1 - jitterPercent/100)` after the previous action; and — when
the call is placed within `required` of the previous action — never later
than `required * (1 + jitterPercent/100)` after it.  Moreover the jittered
wait always lies within `± wait * jitterPercent/100` of the computed wait and
is clamped non-negative.  (The unconditional upper bound stated by the claim
fails for a caller arriving later than `required`: see the
counterexample.) -/
theorem C5_jitter_spacing_amended (cfg : Config) (st : RLState) (a : ActionType)
    (lastA now u : ℚ)
    (hlast : st.lastActionTime a = some lastA)
    (hp0 : 0 ≤ cfg.JitterPercent) (hp1 : cfg.JitterPercent ≤ 100)
    (hu0 : 0 ≤ u) (hu1 : u ≤ 1)
    (hreq : 0 ≤ max cfg.MinDelay (typeDelay cfg a))
    (hnow : lastA ≤ now)
    (h1 : checkDailyLimits cfg st a = none)
    (h2 : checkHourlyLimits cfg st a = none)
    (h3 : checkBurstProtection cfg st a now = none) :
    ((WaitForPermission cfg st a now u false).1 = none ∧
      (WaitForPermission cfg st a now u false).2.lastActionTime a =
        some (now + effDelay cfg st a now u) ∧
      max cfg.MinDelay (typeDelay cfg a) * (1 - cfg.JitterPercent / 100) ≤
        now + effDelay cfg st a now u - lastA ∧
      (now - lastA ≤ max cfg.MinDelay (typeDelay cfg a) →
        now + effDelay cfg st a now u - lastA ≤
          max cfg.MinDelay (typeDelay cfg a) * (1 + cfg.JitterPercent / 100))) ∧
    (calculateDelay cfg st a now -
        calculateDelay cfg st a now * cfg.JitterPercent / 100 ≤
        addJitter cfg u (calculateDelay cfg st a now) ∧
      addJitter cfg u (calculateDelay cfg st a now) ≤
        calculateDelay cfg st a now +
          calculateDelay cfg st a now * cfg.JitterPercent / 100 ∧
      0 ≤ addJitter cfg u (calculateDelay cfg st a now)) := by
  have hd0 : 0 ≤ calculateDelay cfg st a now := calculateDelay_nonneg cfg st a now
  obtain ⟨hb1, hb2⟩ := addJitter_bounds cfg u _ hd0 hp0 hu0 hu1
  have hcall := WaitForPermission_commit_time cfg st a now u h1 h2 h3
  have hd0eq : calculateDelay cfg st a now =
      max 0 (max cfg.MinDelay (typeDelay cfg a) - (now - lastA)) := by
    rw [calculateDelay_eq]
    unfold specWait
    rw [hlast]
  have he1 : calculateDelay cfg st a now -
      calculateDelay cfg st a now * cfg.JitterPercent / 100 ≤
      effDelay cfg st a now u := by
    unfold effDelay
    split
    · exact hb1
    · nlinarith [mul_nonneg hd0 hp0]
  have he2 : effDelay cfg st a now u ≤ calculateDelay cfg st a now +
      calculateDelay cfg st a now * cfg.JitterPercent / 100 := by
    unfold effDelay
    split
    · exact hb2
    · nlinarith [mul_nonneg hd0 hp0]
  refine ⟨⟨?_, ?_, ?_, ?_⟩, hb1, hb2, addJitter_nonneg cfg u _ hd0⟩
  · rw [hcall]
  · rw [hcall]
    simp [updateTracking]
  · rcases le_or_lt (max cfg.MinDelay (typeDelay cfg a)) (now - lastA) with
      hcase | hcase
    · have hcd : calculateDelay cfg st a now = 0 := by
        rw [hd0eq, max_eq_left (by linarith)]
      have hE0 : effDelay cfg st a now u ≤ 0 := by
        rw [hcd] at he2
        linarith
      have hE : effDelay cfg st a now u = 0 :=
        le_antisymm hE0 (effDelay_nonneg cfg st a now u)
      rw [hE, add_zero]
      nlinarith [mul_nonneg hreq hp0]
    · have hcd : calculateDelay cfg st a now =
          max cfg.MinDelay (typeDelay cfg a) - (now - lastA) := by
        rw [hd0eq, max_eq_right (by linarith)]
      rw [hcd] at he1
      nlinarith [mul_nonneg (by linarith : (0:ℚ) ≤ now - lastA) hp0]
  · intro hle
    have hcd : calculateDelay cfg st a now =
        max cfg.MinDelay (typeDelay cfg a) - (now - lastA) := by
      rw [hd0eq, max_eq_right (by linarith)]
    rw [hcd] at he2
    nlinarith [mul_nonneg (by linarith : (0:ℚ) ≤ now - lastA) hp0]

/-- Witness for C5 (amended): minimum delay 10 with 20% jitter, previous
action at 0, call at 3 with draw 1/2 — both spacing bounds and the jitter
characterization hold. -/
theorem C5_witness :
    ((WaitForPermission cfgJit stRan0 ActionType.browse 3 (1/2) false).1 = none ∧
      (WaitForPermission cfgJit stRan0 ActionType.browse 3 (1/2) false).2.lastActionTime
        ActionType.browse =
        some (3 + effDelay cfgJit stRan0 ActionType.browse 3 (1/2)) ∧
      max cfgJit.MinDelay (typeDelay cfgJit ActionType.browse) *
          (1 - cfgJit.JitterPercent / 100) ≤
        3 + effDelay cfgJit stRan0 ActionType.browse 3 (1/2) - 0 ∧
      ((3:ℚ) - 0 ≤ max cfgJit.MinDelay (typeDelay cfgJit ActionType.browse) →
        3 + effDelay cfgJit stRan0 ActionType.browse 3 (1/2) - 0 ≤
          max cfgJit.MinDelay (typeDelay cfgJit ActionType.browse) *
            (1 + cfgJit.JitterPercent / 100))) ∧
    (calculateDelay cfgJit stRan0 ActionType.browse 3 -
        calculateDelay cfgJit stRan0 ActionType.browse 3 *
          cfgJit.JitterPercent / 100 ≤
        addJitter cfgJit (1/2) (calculateDelay cfgJit stRan0 ActionType.browse 3) ∧
      addJitter cfgJit (1/2) (calculateDelay cfgJit stRan0 ActionType.browse 3) ≤
        calculateDelay cfgJit stRan0 ActionType.browse 3 +
          calculateDelay cfgJit stRan0 ActionType.browse 3 *
            cfgJit.JitterPercent / 100 ∧
      0 ≤ addJitter cfgJit (1/2) (calculateDelay cfgJit stRan0 ActionType.browse 3)) :=
  C5_jitter_spacing_amended cfgJit stRan0 ActionType.browse 0 3 (1/2) rfl
    (by norm_num [cfgJit]) (by norm_num [cfgJit]) (by norm_num) (by norm_num)
    (by norm_num [cfgJit, typeDelay, max_self]) (by norm_num) rfl rfl rfl

/-- C5 counterexample: with required spacing 10 and 20% jitter, a call placed
100 units after the previous committed action of the type is admitted with a
zero wait and completes 100 units after it — beyond the claimed unconditional
upper bound `10 * (1 + 20/100) = 12`. -/
theorem C5_counterexample :
    (WaitForPermission cfgJit stRan0 ActionType.browse 100 (1/2) false).1 = none ∧
    (WaitForPermission cfgJit stRan0 ActionType.browse 100 (1/2) false).2.lastActionTime
      ActionType.browse = some 100 ∧
    stRan0.lastActionTime ActionType.browse = some 0 ∧
    ¬((100 : ℚ) - 0 ≤ max cfgJit.MinDelay (typeDelay cfgJit ActionType.browse) *
        (1 + cfgJit.JitterPercent / 100)) := by
  have hE : effDelay cfgJit stRan0 ActionType.browse 100 (1/2) = 0 := by
    norm_num [effDelay, cfgJit, addJitter, calculateDelay, stRan0, typeDelay]
  have hcall := WaitForPermission_commit_time cfgJit stRan0 ActionType.browse 100
    (1/2) rfl rfl rfl
  refine ⟨by rw [hcall], ?_, rfl, ?_⟩
  · rw [hcall, hE, add_zero]
    simp [updateTracking]
  · norm_num [cfgJit, typeDelay, max_self]

/-- Sum of a list after multiplying every element by a constant. -/
theorem sum_map_mul (l : List ℤ) (d : ℤ) :
    (l.map fun c => c * d).sum = l.sum * d := by
  induction l with
  | nil => simp
  | cons x xs ih =>
      simp only [List.map_cons, List.sum_cons, ih]
      ring

/-- The chosen base chunk speed is at least 2 when `MinSpeed ≥ 2`,
`MaxSpeed ≥ MinSpeed` and the draw is non-negative. -/
theorem base_ge_two (cfg : ScrollingConfig) (draw : ℤ) (hmin : 2 ≤ cfg.MinSpeed)
    (hmax : cfg.MinSpeed ≤ cfg.MaxSpeed) (hdraw : 0 ≤ draw) :
    2 ≤ (if cfg.VariableSpeed then cfg.MinSpeed + draw
      else (cfg.MinSpeed + cfg.MaxSpeed).tdiv 2) := by
  split
  · linarith
  · rw [Int.tdiv_eq_ediv (by linarith) (by norm_num)]
    calc (2:ℤ) ≤ cfg.MinSpeed := hmin
      _ = 2 * cfg.MinSpeed / 2 := (Int.mul_ediv_cancel_left _ (by norm_num)).symm
      _ ≤ (cfg.MinSpeed + cfg.MaxSpeed) / 2 :=
          Int.ediv_le_ediv (by norm_num) (by linarith)

/-- With `MinSpeed ≥ 2`, `MaxSpeed ≥ MinSpeed` and a non-negative draw, the
chunk speed stays at least 1 after the acceleration or deceleration factor
(Go truncates `0.7 ×` and `1.3 ×` toward zero). -/
theorem chunkSpeed_ge_one (cfg : ScrollingConfig) (A draw remaining : ℤ)
    (hmin : 2 ≤ cfg.MinSpeed) (hmax : cfg.MinSpeed ≤ cfg.MaxSpeed)
    (hdraw : 0 ≤ draw) : 1 ≤ chunkSpeed cfg A draw remaining := by
  have hb := base_ge_two cfg draw hmin hmax hdraw
  unfold chunkSpeed
  dsimp only
  split
  · rw [Int.tdiv_eq_ediv (by linarith) (by norm_num),
      Int.le_ediv_iff_mul_le (by norm_num)]
    linarith
  · split
    · rw [Int.tdiv_eq_ediv (by linarith) (by norm_num),
        Int.le_ediv_iff_mul_le (by norm_num)]
      linarith
    · linarith

/-- With `MinSpeed ≥ 2`, `MaxSpeed ≥ MinSpeed` and a non-negative draw, one
scroll-loop iteration on a positive `remaining` emits a chunk in
`[1, remaining]` and decreases `remaining` by exactly that chunk. -/
theorem scrollStep_progress (cfg : ScrollingConfig) (A draw remaining : ℤ)
    (hmin : 2 ≤ cfg.MinSpeed) (hmax : cfg.MinSpeed ≤ cfg.MaxSpeed)
    (hdraw : 0 ≤ draw) (hrem : 1 ≤ remaining) :
    1 ≤ (scrollStep cfg A draw remaining).1 ∧
    (scrollStep cfg A draw remaining).1 ≤ remaining ∧
    (scrollStep cfg A draw remaining).2 =
      remaining - (scrollStep cfg A draw remaining).1 := by
  have h1 := chunkSpeed_ge_one cfg A draw remaining hmin hmax hdraw
  unfold scrollStep
  dsimp only
  refine ⟨?_, ?_, rfl⟩
  · split
    · exact hrem
    · exact h1
  · split
    · exact le_refl remaining
    · next h => push_neg at h; exact h

/-- Under the positivity hypotheses, the scroll loop with fuel at least
`remaining` terminates and its chunks sum to exactly `remaining`. -/
theorem scrollLoop_sum (cfg : ScrollingConfig) (A : ℤ) (draws : ℕ → ℤ)
    (hmin : 2 ≤ cfg.MinSpeed) (hmax : cfg.MinSpeed ≤ cfg.MaxSpeed)
    (hdraw : ∀ i, 0 ≤ draws i) :
    ∀ (fuel i : ℕ) (remaining : ℤ), 0 ≤ remaining → remaining ≤ fuel →
      ∃ l, scrollLoop cfg A draws fuel i remaining = some l ∧
        l.sum = remaining := by
  intro fuel
  induction fuel with
  | zero =>
      intro i remaining h0 hf
      have hz : remaining = 0 := le_antisymm (by exact_mod_cast hf) h0
      subst hz
      exact ⟨[], by norm_num [scrollLoop], by simp⟩
  | succ n ih =>
      intro i remaining h0 hf
      by_cases hr : remaining ≤ 0
      · have hz : remaining = 0 := le_antisymm hr h0
        subst hz
        exact ⟨[], by norm_num [scrollLoop], by simp⟩
      · push_neg at hr
        obtain ⟨hs1, hs2, hs3⟩ := scrollStep_progress cfg A (draws i) remaining
          hmin hmax (hdraw i) hr
        push_cast at hf
        obtain ⟨l, hl, hsum⟩ := ih (i + 1) (scrollStep cfg A (draws i) remaining).2
          (by rw [hs3]; linarith) (by rw [hs3]; linarith)
        refine ⟨(scrollStep cfg A (draws i) remaining).1 :: l, ?_, ?_⟩
        · simp only [scrollLoop]
          rw [if_neg (not_le.mpr hr), hl]
        · rw [List.sum_cons, hsum, hs3]
          ring

/-- C9 (amended): whenever every per-iteration chunk stays positive — in
particular with `MinSpeed ≥ 2`, `MaxSpeed ≥ MinSpeed` and draws in range —
the scroll loop terminates and the issued step amounts sum to exactly the
requested total, the optional overshoot-and-correct pair contributing a net
of zero.  (Without the positivity condition — e.g. fixed speed 1 with
acceleration enabled — the loop emits zero-size chunks forever and no step
sequence is produced: see the counterexample.) -/
theorem C9_scroll_sum_amended (cfg : ScrollingConfig) (A : ℤ) (draws : ℕ → ℤ)
    (doB : Bool) (hmin : 2 ≤ cfg.MinSpeed)
    (hmax : cfg.MinSpeed ≤ cfg.MaxSpeed) (hdraw : ∀ i, 0 ≤ draws i) :
    ∃ steps, HumanLikeScroll cfg A draws doB A.natAbs = some steps ∧
      steps.sum = A := by
  unfold HumanLikeScroll
  dsimp only
  rcases lt_or_le A 0 with hA | hA
  · rw [if_pos hA, if_pos hA]
    obtain ⟨l, hl, hsum⟩ := scrollLoop_sum cfg A draws hmin hmax hdraw
      A.natAbs 0 (-A) (by linarith) (by omega)
    rw [hl]
    dsimp only
    split
    · exact ⟨_, rfl, by
        rw [List.sum_append, sum_map_mul, hsum]
        simp only [List.sum_cons, List.sum_nil]
        ring⟩
    · exact ⟨_, rfl, by rw [sum_map_mul, hsum]; ring⟩
  · rw [if_neg (not_lt.mpr hA), if_neg (not_lt.mpr hA)]
    obtain ⟨l, hl, hsum⟩ := scrollLoop_sum cfg A draws hmin hmax hdraw
      A.natAbs 0 A hA (by omega)
    rw [hl]
    dsimp only
    split
    · exact ⟨_, rfl, by
        rw [List.sum_append, sum_map_mul, hsum]
        simp only [List.sum_cons, List.sum_nil]
        ring⟩
    · exact ⟨_, rfl, by rw [sum_map_mul, hsum]; ring⟩

/-- Witness for C9 (amended): speeds drawn as `MinSpeed = 2` with total 10 —
the loop terminates and the steps sum to 10. -/
theorem C9_witness :
    ∃ steps, HumanLikeScroll cfgScrollGood 10 (fun _ => 0) false
      (Int.natAbs 10) = some steps ∧ steps.sum = 10 :=
  C9_scroll_sum_amended cfgScrollGood 10 (fun _ => 0) false
    (by norm_num [cfgScrollGood]) (by norm_num [cfgScrollGood])
    (fun _ => le_refl 0)

/-- On the degenerate configuration (fixed speed 1, acceleration on), the
loop never makes progress from `remaining = 10`: every iteration emits a
zero chunk. -/
theorem scrollLoop_bad_diverges :
    ∀ (fuel i : ℕ), scrollLoop cfgScrollBad 10 (fun _ => 0) fuel i 10 = none := by
  intro fuel
  induction fuel with
  | zero => intro i; norm_num [scrollLoop]
  | succ n ih =>
      intro i
      have hs : scrollStep cfgScrollBad 10 0 10 = (0, 10) := by decide
      simp [scrollLoop, hs, ih]

/-- C9 counterexample: with fixed scroll speed 1 (`minSpeed = maxSpeed = 1`)
and acceleration enabled, the first-half factor truncates the chunk to
`int(float64(1) * 0.7) = 0`, so the loop emits a zero chunk, never decreases
`remaining`, and never produces a step sequence summing to the requested
total of 10 — the Go loop spins forever (here: still unfinished after 1000
iterations, having made no progress). -/
theorem C9_counterexample :
    scrollStep cfgScrollBad 10 0 10 = (0, 10) ∧
    HumanLikeScroll cfgScrollBad 10 (fun _ => 0) false 1000 = none := by
  refine ⟨by decide, ?_⟩
  unfold HumanLikeScroll
  dsimp only
  rw [if_neg (by norm_num : ¬(10:ℤ) < 0), scrollLoop_bad_diverges 1000 0]
